import Mathlib

/-!
# Verification of the S3Backup signing and crypto core

A shallow embedding, over `List Nat` byte sequences, of the request-signing
and cryptographic core of the S3Backup repository:

* the JavaScript string/byte primitives the code relies on
  (`TextEncoder`/`TextDecoder` UTF-8, `btoa`/`atob` base64,
  `encodeURIComponent`, `URLSearchParams` serialization,
  `Number.prototype.toString(16)` hex),
* the from-scratch MD5 implementation,
* the SigV4 signing pipeline of `S3Client` / `S3ClientSSE`
  (`calculateSignature`, `generatePresignedUrl`, `getSSEHeaders`,
  configuration handling), and
* `CryptoManager` (AES-256-GCM envelope seal/open), with the Web Crypto
  primitives (`crypto.subtle` HMAC, SHA-256, PBKDF2, AES-GCM) treated as
  parameters, since they are browser built-ins and not code of this
  repository.

Bytes are `Nat` values; where a function is only meaningful on genuine
bytes, theorems carry explicit `< 256` bounds.
-/

namespace S3Backup

/-! ## UTF-8 (model of `TextEncoder` / `TextDecoder`) -/

/-- UTF-8 encoding of a single Unicode scalar value, as byte values.
This is what `TextEncoder` produces for each code point of a string. -/
def utf8EncodeChar (c : Char) : List Nat :=
  if c.toNat < 128 then [c.toNat]
  else if c.toNat < 2048 then [192 + c.toNat / 64, 128 + c.toNat % 64]
  else if c.toNat < 65536 then
    [224 + c.toNat / 4096, 128 + c.toNat / 64 % 64, 128 + c.toNat % 64]
  else
    [240 + c.toNat / 262144, 128 + c.toNat / 4096 % 64, 128 + c.toNat / 64 % 64,
      128 + c.toNat % 64]

/-- UTF-8 encoding of a character list. -/
def utf8EncodeList : List Char → List Nat
  | [] => []
  | c :: cs => utf8EncodeChar c ++ utf8EncodeList cs

/-- UTF-8 encoding of a string (`new TextEncoder().encode(s)`). -/
def utf8Encode (s : String) : List Nat :=
  utf8EncodeList s.data

/-- Is `b` a UTF-8 continuation byte? -/
def utf8IsCont (b : Nat) : Bool :=
  128 ≤ b && b < 192

/-- UTF-8 decoding of a byte list, modelling `TextDecoder` without the
`fatal` flag: well-formed sequences decode to their scalar value, and a
malformed byte decodes to U+FFFD. Only the well-formed case matters for
the round-trip theorems below. -/
def utf8DecodeList : List Nat → List Char
  | [] => []
  | b :: rest =>
    if b < 128 then Char.ofNat b :: utf8DecodeList rest
    else if 192 ≤ b && b < 224 then
      if 1 ≤ rest.length && utf8IsCont (rest.getD 0 0) then
        Char.ofNat ((b - 192) * 64 + (rest.getD 0 0 - 128)) ::
          utf8DecodeList (rest.drop 1)
      else Char.ofNat 65533 :: utf8DecodeList rest
    else if 224 ≤ b && b < 240 then
      if 2 ≤ rest.length && utf8IsCont (rest.getD 0 0) && utf8IsCont (rest.getD 1 0) then
        Char.ofNat ((b - 224) * 4096 + (rest.getD 0 0 - 128) * 64 +
            (rest.getD 1 0 - 128)) :: utf8DecodeList (rest.drop 2)
      else Char.ofNat 65533 :: utf8DecodeList rest
    else if 240 ≤ b && b < 248 then
      if 3 ≤ rest.length && utf8IsCont (rest.getD 0 0) && utf8IsCont (rest.getD 1 0)
          && utf8IsCont (rest.getD 2 0) then
        Char.ofNat ((b - 240) * 262144 + (rest.getD 0 0 - 128) * 4096 +
            (rest.getD 1 0 - 128) * 64 + (rest.getD 2 0 - 128)) ::
          utf8DecodeList (rest.drop 3)
      else Char.ofNat 65533 :: utf8DecodeList rest
    else Char.ofNat 65533 :: utf8DecodeList rest
termination_by l => l.length
decreasing_by
  all_goals (simp only [List.length_cons, List.length_drop]; omega)
/-- UTF-8 decoding of a byte list to a string
(`new TextDecoder().decode(bytes)`). -/
def utf8Decode (bs : List Nat) : String :=
  String.mk (utf8DecodeList bs)
/-! ## Base64 (model of `btoa` / `atob`)

`CryptoManager.arrayBufferToBase64` builds a binary string from the bytes
and calls `btoa`; `base64ToArrayBuffer` calls `atob` and reads the char
codes back.  Both are modelled here directly as a byte-list codec.
`atob` throws on invalid input, hence the `Option`. -/

/-- The standard base64 alphabet. -/
def b64Alphabet : List Char :=
  "ABCDEFGHIJKLMNOPQRSTUVWXYZabcdefghijklmnopqrstuvwxyz0123456789+/".data

/-- The base64 character for a 6-bit group. -/
def b64Char (n : Nat) : Char := b64Alphabet.getD n 'A'

/-- The 6-bit group of a base64 character, if any. -/
def b64Index (c : Char) : Option Nat := b64Alphabet.findIdx? (fun x => x == c)

/-- `btoa` on a byte list: 3-byte groups become 4 alphabet characters,
with `=` padding for a 1- or 2-byte tail. -/
def btoaEncode : List Nat → String
  | [] => ""
  | [a] => String.mk [b64Char (a / 4), b64Char (a % 4 * 16), '=', '=']
  | [a, b] =>
    String.mk [b64Char (a / 4), b64Char (a % 4 * 16 + b / 16), b64Char (b % 16 * 4), '=']
  | a :: b :: c :: rest =>
    String.mk [b64Char (a / 4), b64Char (a % 4 * 16 + b / 16),
      b64Char (b % 16 * 4 + c / 64), b64Char (c % 64)] ++ btoaEncode rest

/-- `atob` on a character list: 4-character groups, with `=` padding only
at the very end.  Any other shape (bad length, characters outside the
alphabet, misplaced padding) is a failure, as `atob` throws there. -/
def atobDecodeAux : List Char → Option (List Nat)
  | [] => some []
  | c1 :: c2 :: c3 :: c4 :: rest =>
    (b64Index c1).bind fun s1 =>
    (b64Index c2).bind fun s2 =>
    if c3 = '=' then
      if c4 = '=' && rest.isEmpty then some [s1 * 4 + s2 / 16] else none
    else
      (b64Index c3).bind fun s3 =>
      if c4 = '=' then
        if rest.isEmpty then some [s1 * 4 + s2 / 16, s2 % 16 * 16 + s3 / 4] else none
      else
        (b64Index c4).bind fun s4 =>
        (atobDecodeAux rest).map fun bs =>
          (s1 * 4 + s2 / 16) :: (s2 % 16 * 16 + s3 / 4) :: (s3 % 4 * 64 + s4) :: bs
  | _ => none

/-- `atob` on a string. -/
def atobDecode (s : String) : Option (List Nat) := atobDecodeAux s.data
/-! ## Hexadecimal rendering

The signing code renders byte arrays with
`Array.from(bytes).map(b => b.toString(16).padStart(2, "0")).join("")`. -/

/-- Lowercase hex digit. -/
def hexLowerDigit (n : Nat) : Char := "0123456789abcdef".data.getD n '0'

/-- Uppercase hex digit (used by percent-escapes). -/
def hexUpperDigit (n : Nat) : Char := "0123456789ABCDEF".data.getD n '0'

/-- `Number.prototype.toString(16)` on a nonnegative integer: minimal-length
lowercase hexadecimal. -/
def jsToString16 (n : Nat) : String := String.mk (Nat.toDigits 16 n)

/-- `String.prototype.padStart(2, "0")`. -/
def jsPadStart2 (s : String) : String :=
  if s.length < 2 then String.mk (List.replicate (2 - s.length) '0') ++ s else s

/-- One byte rendered as `b.toString(16).padStart(2, "0")`. -/
def jsHexByte (b : Nat) : String := jsPadStart2 (jsToString16 b)

/-- `Array.from(bytes).map(b => b.toString(16).padStart(2, "0")).join("")`. -/
def bytesToHexJs (bs : List Nat) : String := String.join (bs.map jsHexByte)

/-- Spec-side lowercase hex encoding of one byte: exactly two lowercase
hex digits. -/
def lowercaseHexByte (b : Nat) : String :=
  String.mk [hexLowerDigit (b / 16), hexLowerDigit (b % 16)]

/-- Spec-side lowercase hex encoding of a byte sequence. -/
def lowercaseHex (bs : List Nat) : String := String.join (bs.map lowercaseHexByte)
/-! ## MD5 (the from-scratch implementation)

A direct embedding of the repository MD5 class: `updateBytes` is modelled
as `padMessage` followed by the 64-byte chunk loop, `digest` as the
little-endian serialization inside `hashBytes`. -/

namespace MD5

/-- The running state `this.h = [A, B, C, D]`. -/
structure State where
  h0 : Nat
  h1 : Nat
  h2 : Nat
  h3 : Nat

/-- `addUint32`: 32-bit wrapping addition (`(a + b) >>> 0`). -/
def addUint32 (a b : Nat) : Nat := (a + b) % 4294967296

/-- 32-bit bitwise complement (`~x` on a uint32 value). -/
def not32 (x : Nat) : Nat := x ^^^ 4294967295

/-- `leftRotate`: `((value << amount) | (value >>> (32 - amount))) >>> 0`. -/
def leftRotate (value amount : Nat) : Nat :=
  (value <<< amount) % 4294967296 ||| value >>> (32 - amount)

/-- `getK(i)`: the 64 round constants. -/
def getK (i : Nat) : Nat :=
  ([0xD76AA478, 0xE8C7B756, 0x242070DB, 0xC1BDCEEE, 0xF57C0FAF, 0x4787C62A,
    0xA8304613, 0xFD469501, 0x698098D8, 0x8B44F7AF, 0xFFFF5BB1, 0x895CD7BE,
    0x6B901122, 0xFD987193, 0xA679438E, 0x49B40821, 0xF61E2562, 0xC040B340,
    0x265E5A51, 0xE9B6C7AA, 0xD62F105D, 0x02441453, 0xD8A1E681, 0xE7D3FBC8,
    0x21E1CDE6, 0xC33707D6, 0xF4D50D87, 0x455A14ED, 0xA9E3E905, 0xFCEFA3F8,
    0x676F02D9, 0x8D2A4C8A, 0xFFFA3942, 0x8771F681, 0x6D9D6122, 0xFDE5380C,
    0xA4BEEA44, 0x4BDECFA9, 0xF6BB4B60, 0xBEBFBC70, 0x289B7EC6, 0xEAA127FA,
    0xD4EF3085, 0x04881D05, 0xD9D4D039, 0xE6DB99E5, 0x1FA27CF8, 0xC4AC5665,
    0xF4292244, 0x432AFF97, 0xAB9423A7, 0xFC93A039, 0x655B59C3, 0x8F0CCC92,
    0xFFEFF47D, 0x85845DD1, 0x6FA87E4F, 0xFE2CE6E0, 0xA3014314, 0x4E0811A1,
    0xF7537E82, 0xBD3AF235, 0x2AD7D2BB, 0xEB86D391] : List Nat).getD i 0

/-- `getR(i)`: the 64 per-round shift amounts. -/
def getR (i : Nat) : Nat :=
  ([7, 12, 17, 22, 7, 12, 17, 22, 7, 12, 17, 22, 7, 12, 17, 22,
    5, 9, 14, 20, 5, 9, 14, 20, 5, 9, 14, 20, 5, 9, 14, 20,
    4, 11, 16, 23, 4, 11, 16, 23, 4, 11, 16, 23, 4, 11, 16, 23,
    6, 10, 15, 21, 6, 10, 15, 21, 6, 10, 15, 21, 6, 10, 15, 21] : List Nat).getD i 0

/-- The round function `f` of the main loop, by round index. -/
def mdF (i b c d : Nat) : Nat :=
  if i < 16 then (b &&& c) ||| (not32 b &&& d)
  else if i < 32 then (d &&& b) ||| (not32 d &&& c)
  else if i < 48 then b ^^^ c ^^^ d
  else c ^^^ (b ||| not32 d)

/-- The message-word index `g` of the main loop, by round index. -/
def mdG (i : Nat) : Nat :=
  if i < 16 then i
  else if i < 32 then (5 * i + 1) % 16
  else if i < 48 then (3 * i + 5) % 16
  else (7 * i) % 16

/-- One round of the main loop:
`(a, b, c, d) := (d, b + rotl(a + f + K[i] + w[g], r[i]), b, c)`. -/
def mdStep (w : List Nat) (s : Nat × Nat × Nat × Nat) (i : Nat) :
    Nat × Nat × Nat × Nat :=
  (s.2.2.2,
   addUint32 s.2.1
     (leftRotate
       (addUint32 (addUint32 s.1 (mdF i s.2.1 s.2.2.1 s.2.2.2))
         (addUint32 (getK i) (w.getD (mdG i) 0)))
       (getR i)),
   s.2.1, s.2.2.1)

/-- The 16 little-endian 32-bit words of a 64-byte chunk
(`view.getUint32(i * 4, true)`). -/
def bytesToWordsLE : List Nat → List Nat
  | b0 :: b1 :: b2 :: b3 :: rest =>
    (b0 + 256 * b1 + 65536 * b2 + 16777216 * b3) :: bytesToWordsLE rest
  | _ => []

/-- `processChunk`: 64 rounds over one 64-byte chunk, then the feed-forward
addition into the running state. -/
def processChunk (h : State) (chunk : List Nat) : State :=
  let w := bytesToWordsLE chunk
  let s := (List.range 64).foldl (mdStep w) (h.h0, h.h1, h.h2, h.h3)
  ⟨addUint32 h.h0 s.1, addUint32 h.h1 s.2.1, addUint32 h.h2 s.2.2.1,
    addUint32 h.h3 s.2.2.2⟩

/-- A 32-bit value as 4 little-endian bytes (`setUint32(_, n, true)`). -/
def le32Bytes (n : Nat) : List Nat :=
  [n % 256, n / 256 % 256, n / 65536 % 256, n / 16777216 % 256]

/-- The padding built by `updateBytes`: a `0x80` byte, zeros up to
56 mod 64, then the 64-bit little-endian bit length (low word first).
The JavaScript `(56 - (msgLen + 1) % 64 + 64) % 64` is evaluated over
the integers, hence the detour through `Int`. -/
def padMessage (bytes : List Nat) : List Nat :=
  bytes ++ [128]
    ++ List.replicate ((56 - ((bytes.length + 1 : Int) % 64) + 64) % 64).toNat 0
    ++ le32Bytes (bytes.length * 8 % 4294967296)
    ++ le32Bytes (bytes.length * 8 / 4294967296)

/-- The chunk loop of `updateBytes`
(`for (let i = 0; i < totalLen; i += 64) processChunk(...)`), indexed by
the number of 64-byte chunks left. -/
def processBlocksN : Nat → State → List Nat → State
  | 0, h, _ => h
  | n + 1, h, l => processBlocksN n (processChunk h (l.take 64)) (l.drop 64)

/-- `MD5.hashBytes`: pad, process every chunk, and serialize the state
little-endian (`digest`). -/
def hashBytes (bytes : List Nat) : List Nat :=
  let padded := padMessage bytes
  let final := processBlocksN (padded.length / 64)
    ⟨0x67452301, 0xEFCDAB89, 0x98BADCFE, 0x10325476⟩ padded
  le32Bytes final.h0 ++ le32Bytes final.h1 ++ le32Bytes final.h2 ++ le32Bytes final.h3

end MD5
/-! ## `encodeURIComponent` and the canonical URI -/

/-- The characters `encodeURIComponent` leaves unencoded: ASCII
alphanumerics and `- _ . ! ~ * ' ( )` (apostrophe written by code point). -/
def jsSafeChar (c : Char) : Bool :=
  c.isAlphanum || c = '-' || c = '_' || c = '.' || c = '!' || c = '~' || c = '*'
    || c.toNat = 39 || c = '(' || c = ')'

/-- A percent-escape `%XY` with uppercase hex digits, as characters. -/
def percentEncodeByteChars (b : Nat) : List Char :=
  ['%', hexUpperDigit (b / 16), hexUpperDigit (b % 16)]

/-- The concatenated percent-escapes of a byte sequence. -/
def escapeBytes : List Nat → List Char
  | [] => []
  | b :: rest => percentEncodeByteChars b ++ escapeBytes rest

/-- `encodeURIComponent` on a single code point: safe characters pass
through, everything else becomes the percent-escapes of its UTF-8 bytes. -/
def encodeURIComponentChar (c : Char) : String :=
  if jsSafeChar c then String.mk [c]
  else String.mk (escapeBytes (utf8EncodeChar c))

/-- `encodeURIComponent` over a character list. -/
def encodeURIComponentList : List Char → List Char
  | [] => []
  | c :: cs => (encodeURIComponentChar c).data ++ encodeURIComponentList cs

/-- `encodeURIComponent`. -/
def jsEncodeURIComponent (s : String) : String :=
  String.mk (encodeURIComponentList s.data)

/-- `.replace(/%2F/g, "/")`: global leftmost replacement of `%2F` by `/`. -/
def replace2F : List Char → List Char
  | '%' :: '2' :: 'F' :: rest => '/' :: replace2F rest
  | c :: rest => c :: replace2F rest
  | [] => []

/-- The object-key part of the canonical URI:
`encodeURIComponent(key).replace(/%2F/g, "/")`. -/
def encodeKeyForUri (key : String) : String :=
  String.mk (replace2F (jsEncodeURIComponent key).data)

/-- `canonicalUri` of `generatePresignedUrl`:
`/${bucket}/${encodeURIComponent(key).replace(/%2F/g, "/")}`. -/
def canonicalUriFor (bucket key : String) : String :=
  "/" ++ bucket ++ "/" ++ encodeKeyForUri key

/-- The strict RFC 3986 unreserved set named by the specification:
only `A-Z a-z 0-9 - . _ ~`. -/
def rfc3986Unreserved (c : Char) : Bool :=
  c.isAlphanum || c = '-' || c = '.' || c = '_' || c = '~'

/-- The per-character description of the encoded object key: `/` is
preserved, every other character is encoded exactly as
`encodeURIComponent` encodes it. -/
def specEncodeKeyChars : List Char → List Char
  | [] => []
  | c :: cs =>
    (if c = '/' then ['/'] else (encodeURIComponentChar c).data)
      ++ specEncodeKeyChars cs

/-! ## `URLSearchParams` serialization -/

/-- Bytes the `application/x-www-form-urlencoded` serializer leaves
unencoded: `* - . _` and ASCII alphanumerics. -/
def formSafeByte (b : Nat) : Bool :=
  (48 ≤ b && b ≤ 57) || (65 ≤ b && b ≤ 90) || (97 ≤ b && b ≤ 122)
    || b = 42 || b = 45 || b = 46 || b = 95

/-- One byte under the form-urlencoded serializer: space becomes `+`,
safe bytes pass through, the rest are percent-escaped. -/
def formUrlEncodeByte (b : Nat) : String :=
  if b = 32 then "+"
  else if formSafeByte b then String.mk [Char.ofNat b]
  else String.mk (percentEncodeByteChars b)

/-- Form-urlencoded serialization of one string. -/
def formUrlEncode (s : String) : String :=
  String.join ((utf8Encode s).map formUrlEncodeByte)

/-- `URLSearchParams(pairs).toString()`: `k=v` pairs joined with `&` in
insertion order, keys and values form-urlencoded. -/
def urlSearchParamsToString (ps : List (String × String)) : String :=
  String.intercalate "&" (ps.map fun p => formUrlEncode p.1 ++ "=" ++ formUrlEncode p.2)

/-- Strict byte-order comparison of byte lists. -/
def bytesLtB : List Nat → List Nat → Bool
  | [], [] => false
  | [], _ :: _ => true
  | _ :: _, [] => false
  | a :: as, b :: bs =>
    if a < b then true else if a = b then bytesLtB as bs else false

/-- Strict byte order on strings (UTF-8 bytes, lexicographic). -/
def stringByteLt (s t : String) : Bool := bytesLtB (utf8Encode s) (utf8Encode t)

/-- `new URL(endpoint).host` for `scheme://host[/path]` endpoints: the part
after `://` and before the first `/`. -/
def urlHost (endpoint : String) : String :=
  String.mk (((endpoint.splitOn "://").getD 1 "").data.takeWhile (fun c => c ≠ '/'))

/-- `String.prototype.endsWith`. -/
def jsEndsWith (s t : String) : Bool := decide (t.data <:+ s.data)

/-- JavaScript `x || d` for an optional string field: `undefined` and the
empty string are falsy and give the default. -/
def jsOrDefault (v : Option String) (d : String) : String :=
  match v with
  | none => d
  | some s => if s = "" then d else s

/-- A required-field check `cfg[field] && cfg[field].trim() !== ""`. -/
def jsFieldOk (v : Option String) : Bool :=
  match v with
  | none => false
  | some s => decide (s ≠ "") && decide (s.trim ≠ "")
/-! ## SigV4 signing (`S3Client` / `S3ClientSSE`)

`crypto.subtle` supplies HMAC-SHA-256 and SHA-256; both are browser
built-ins, so they enter as parameters (`hmac` over byte lists, `shaHex`
returning the hex digest string used in the string to sign). -/

/-- The type of the HMAC-SHA-256 oracle: key bytes and data bytes to
MAC bytes. -/
def HmacFn : Type := List Nat → List Nat → List Nat

/-- `this.serviceName`. -/
def serviceName : String := "s3"

/-- `this.algorithm`. -/
def sigV4Algorithm : String := "AWS4-HMAC-SHA256"

/-- `calculateSignature(stringToSign, dateStamp)`: the HMAC cascade over
the secret key, date stamp, region, service and terminator, rendered as
JavaScript hex.  String arguments reach `hmacSha256` through
`TextEncoder`, hence the `utf8Encode` calls. -/
def calculateSignature (hmac : HmacFn) (secretKey region : String)
    (stringToSign dateStamp : String) : String :=
  let kDate := hmac (utf8Encode ("AWS4" ++ secretKey)) (utf8Encode dateStamp)
  let kRegion := hmac kDate (utf8Encode region)
  let kService := hmac kRegion (utf8Encode serviceName)
  let kSigning := hmac kService (utf8Encode "aws4_request")
  bytesToHexJs (hmac kSigning (utf8Encode stringToSign))

/-- The signing key exactly as the specification words it:
`kSigning = HMAC(HMAC(HMAC(HMAC("AWS4" + secretKey, dateStamp), region),
"s3"), "aws4_request")`. -/
def sigV4SigningKey (hmac : HmacFn) (secretKey dateStamp region : String) : List Nat :=
  hmac (hmac (hmac (hmac (utf8Encode ("AWS4" ++ secretKey)) (utf8Encode dateStamp))
    (utf8Encode region)) (utf8Encode "s3")) (utf8Encode "aws4_request")

/-- `credentialScope = dateStamp/region/s3/aws4_request`. -/
def credentialScopeFor (dateStamp region : String) : String :=
  dateStamp ++ "/" ++ region ++ "/" ++ serviceName ++ "/aws4_request"

/-- The five query parameters `generatePresignedUrl` inserts, in insertion
order. -/
def presignedQueryParams (accessKey region dateStamp dateString : String)
    (expiresIn : Nat) : List (String × String) :=
  [("X-Amz-Algorithm", sigV4Algorithm),
   ("X-Amz-Credential",
     accessKey ++ "/" ++ dateStamp ++ "/" ++ region ++ "/" ++ serviceName
       ++ "/aws4_request"),
   ("X-Amz-Date", dateString),
   ("X-Amz-Expires", toString expiresIn),
   ("X-Amz-SignedHeaders", "host")]

/-- `[method, uri, qs, headers, signedHeaders, payloadHash].join("\n")`. -/
def canonicalRequestOf (method uri qs headers signedHeaders payloadHash : String) :
    String :=
  String.intercalate "\n" [method, uri, qs, headers, signedHeaders, payloadHash]

/-- `[algorithm, dateString, scope, sha256(canonicalRequest)].join("\n")`. -/
def stringToSignOf (shaHex : String → String) (dateString scope canonicalRequest : String) :
    String :=
  String.intercalate "\n" [sigV4Algorithm, dateString, scope, shaHex canonicalRequest]

/-- `generatePresignedUrl(key, method, expiresIn)`, with the wall-clock
timestamp (`dateString`, `YYYYMMDDTHHMMSSZ`) passed in explicitly. -/
def generatePresignedUrl (shaHex : String → String) (hmac : HmacFn)
    (endpoint bucket region accessKey secretKey : String)
    (key method : String) (expiresIn : Nat) (dateString : String) : String :=
  let dateStamp := dateString.take 8
  let canonicalUri := canonicalUriFor bucket key
  let canonicalQueryString :=
    urlSearchParamsToString (presignedQueryParams accessKey region dateStamp dateString expiresIn)
  let host := urlHost endpoint
  let canonicalRequest := canonicalRequestOf method canonicalUri canonicalQueryString
    ("host:" ++ host ++ "\n") "host" "UNSIGNED-PAYLOAD"
  let credentialScope := credentialScopeFor dateStamp region
  let stringToSign := stringToSignOf shaHex dateString credentialScope canonicalRequest
  let signature := calculateSignature hmac secretKey region stringToSign dateStamp
  endpoint ++ canonicalUri ++ "?" ++ (canonicalQueryString ++ "&X-Amz-Signature=" ++ signature)

/-! ## SSE-C key headers (`S3ClientSSE`) -/

/-- `generateSSEKey(passphrase)`: a single SHA-256 digest of the UTF-8
passphrase bytes (`crypto.subtle.digest` is the `sha256` parameter). -/
def generateSSEKey (sha256 : List Nat → List Nat) (pass : String) : List Nat :=
  sha256 (utf8Encode pass)

/-- `calculateMD5(key)`: base64 of the from-scratch MD5 of the key bytes. -/
def calculateMD5 (key : List Nat) : String :=
  btoaEncode (MD5.hashBytes key)

/-- `getSSEHeaders()`: the three SSE-C transport headers. -/
def getSSEHeaders (sha256 : List Nat → List Nat) (pass : String) :
    List (String × String) :=
  [("x-amz-server-side-encryption-customer-algorithm", "AES256"),
   ("x-amz-server-side-encryption-customer-key", btoaEncode (generateSSEKey sha256 pass)),
   ("x-amz-server-side-encryption-customer-key-MD5",
     calculateMD5 (generateSSEKey sha256 pass))]

/-! ## Configuration handling -/

/-- The duck-typed configuration object passed to the constructors; a
missing field is `none`, and `pathPrefix` models the `path_prefix`
property of the `S3Client` configuration. -/
structure JsConfig where
  s3_endpoint : Option String
  s3_region : Option String
  s3_bucket : Option String
  s3_access_key : Option String
  s3_secret_key : Option String
  encryption_key : Option String
  pathPrefix : Option String

/-- The configuration stored by the `S3ClientSSE` constructor. -/
structure SSEStoredConfig where
  s3_endpoint : String
  s3_region : String
  s3_bucket : Option String
  s3_access_key : Option String
  s3_secret_key : Option String
  encryption_key : Option String

/-- The `S3ClientSSE` constructor: endpoint and region fall back to
defaults through `||`, the remaining fields are stored unchanged, and no
validation happens. -/
def mkS3ClientSSEConfig (c : JsConfig) : SSEStoredConfig :=
  { s3_endpoint := jsOrDefault c.s3_endpoint "https://s3.amazonaws.com",
    s3_region := jsOrDefault c.s3_region "us-east-1",
    s3_bucket := c.s3_bucket,
    s3_access_key := c.s3_access_key,
    s3_secret_key := c.s3_secret_key,
    encryption_key := c.encryption_key }

/-- The configuration stored by the `S3Client` constructor (the class with
the `path_prefix`, modelled as `pathPrefix`). -/
structure S3ClientStored where
  s3_endpoint : Option String
  s3_region : Option String
  s3_bucket : Option String
  s3_access_key : Option String
  s3_secret_key : Option String
  pathPrefix : String

/-- The `S3Client` constructor: `path_prefix: config.path_prefix || "photos/"`,
then a trailing `/` is appended when the stored prefix is truthy and does
not already end with one. -/
def mkS3ClientConfig (c : JsConfig) : S3ClientStored :=
  let pp0 := jsOrDefault c.pathPrefix "photos/"
  { s3_endpoint := c.s3_endpoint,
    s3_region := c.s3_region,
    s3_bucket := c.s3_bucket,
    s3_access_key := c.s3_access_key,
    s3_secret_key := c.s3_secret_key,
    pathPrefix := if pp0 ≠ "" && !(jsEndsWith pp0 "/") then pp0 ++ "/" else pp0 }

/-- `S3Client.validateConfig()`: every required field present and
non-blank; returns a boolean, raises nothing. -/
def validateConfig (c : S3ClientStored) : Bool :=
  jsFieldOk c.s3_endpoint && jsFieldOk c.s3_region && jsFieldOk c.s3_bucket
    && jsFieldOk c.s3_access_key && jsFieldOk c.s3_secret_key

/-- The full key `uploadFile` operates on: `this.config.path_prefix + key`. -/
def uploadFileFullKey (c : S3ClientStored) (key : String) : String :=
  c.pathPrefix ++ key

/-- The full key `downloadFile` operates on. -/
def downloadFileFullKey (c : S3ClientStored) (key : String) : String :=
  c.pathPrefix ++ key

/-- The full key `deleteObject` operates on. -/
def deleteObjectFullKey (c : S3ClientStored) (key : String) : String :=
  c.pathPrefix ++ key

/-- The full listing filter `listObjects` operates on:
`this.config.path_prefix + prefix`. -/
def listObjectsFullPrefix (c : S3ClientStored) (keyPre : String) : String :=
  c.pathPrefix ++ keyPre
/-! ## `CryptoManager` (AES-256-GCM envelopes)

AES-GCM and PBKDF2 live behind `crypto.subtle`; the embedding abstracts
them as a `SubtleCrypto` bundle over an opaque key type: `deriveKey` is
PBKDF2-HMAC-SHA-256 of the passphrase and salt, `encryptGCM key iv data`
the AEAD sealing (ciphertext with the 16-byte tag appended), and
`decryptGCM key iv ct` the combined decrypt-and-verify, `none` exactly
when tag verification fails (the `OperationError` path).  Randomness is
external: the fresh salt and iv drawn by `generateSalt`/`generateIV`
enter as arguments. -/

/-- The `crypto.subtle` facilities `CryptoManager` uses. -/
structure SubtleCrypto (κ : Type) where
  deriveKey : String → List Nat → κ
  encryptGCM : κ → List Nat → List Nat → List Nat
  decryptGCM : κ → List Nat → List Nat → Option (List Nat)

/-- The `{encryptedData, salt, iv}` result of `encryptFile` (metadata
object omitted: `decryptFile` never reads it). -/
structure FileEnvelope where
  encryptedData : List Nat
  salt : List Nat
  iv : List Nat

/-- The base64 `{encryptedData, salt, iv}` result of `encryptString`. -/
structure StringEnvelope where
  encryptedData : String
  salt : String
  iv : String

/-- `arrayBufferToBase64`: binary string of the bytes, then `btoa`. -/
def arrayBufferToBase64 (buffer : List Nat) : String := btoaEncode buffer

/-- `base64ToArrayBuffer`: `atob`, then char codes back into bytes. -/
def base64ToArrayBuffer (s : String) : Option (List Nat) := atobDecode s

/-- `encryptFile(data, passphrase)` on an already-materialized byte
payload, with the drawn salt and iv explicit. -/
def encryptFile {κ : Type} (m : SubtleCrypto κ) (data : List Nat) (pass : String)
    (salt iv : List Nat) : FileEnvelope :=
  { encryptedData := m.encryptGCM (m.deriveKey pass salt) iv data,
    salt := salt, iv := iv }

/-- `decryptFile(encryptedData, salt, iv, passphrase)`: re-derive the key
from the envelope salt and decrypt; an `OperationError` surfaces as the
fixed message. -/
def decryptFile {κ : Type} (m : SubtleCrypto κ) (encryptedData salt iv : List Nat)
    (pass : String) : Except String (List Nat) :=
  match m.decryptGCM (m.deriveKey pass salt) iv encryptedData with
  | some d => Except.ok d
  | none => Except.error "Decryption failed: Incorrect passphrase or corrupted data"

/-- `encryptString(text, passphrase)`: UTF-8 encode, seal, base64 the
three envelope fields. -/
def encryptString {κ : Type} (m : SubtleCrypto κ) (text pass : String)
    (salt iv : List Nat) : StringEnvelope :=
  { encryptedData :=
      arrayBufferToBase64 (m.encryptGCM (m.deriveKey pass salt) iv (utf8Encode text)),
    salt := arrayBufferToBase64 salt,
    iv := arrayBufferToBase64 iv }

/-- `decryptString(encryptedData, salt, iv, passphrase)`: base64-decode
the envelope fields, re-derive, decrypt, and decode the plaintext as
UTF-8; tag failure surfaces as the fixed message, and a malformed base64
field as the generic rethrown message. -/
def decryptString {κ : Type} (m : SubtleCrypto κ) (encryptedData salt iv : String)
    (pass : String) : Except String String :=
  match base64ToArrayBuffer encryptedData, base64ToArrayBuffer salt,
      base64ToArrayBuffer iv with
  | some ct, some saltBytes, some ivBytes =>
    match m.decryptGCM (m.deriveKey pass saltBytes) ivBytes ct with
    | some pt => Except.ok (utf8Decode pt)
    | none => Except.error "Decryption failed: Incorrect passphrase or corrupted data"
  | _, _, _ => Except.error "String decryption failed: invalid base64 input"

/-! ## Helper lemmas -/

theorem char_ofNat_toNat (c : Char) : Char.ofNat c.toNat = c := by
  have hval : Nat.isValidChar c.toNat := c.valid
  rw [Char.ofNat, dif_pos hval]
  apply Char.eq_of_val_eq
  apply UInt32.eq_of_toBitVec_eq
  apply BitVec.eq_of_toNat_eq
  simp [Char.ofNatAux, Char.toNat, UInt32.toNat]

/-- The scalar value of a character is below 0x110000. -/
theorem char_toNat_lt (c : Char) : c.toNat < 1114112 := by
  have hval : c.toNat < 55296 ∨ (57343 < c.toNat ∧ c.toNat < 1114112) := c.valid
  omega

/-- Every byte produced by the UTF-8 encoder is a genuine byte, and only
the character `/` ever contributes the byte 0x2F. -/
theorem utf8EncodeChar_bytes (c : Char) :
    ∀ b ∈ utf8EncodeChar c, b < 256 ∧ (b = 47 → c = '/') := by
  intro b hb
  have hub := char_toNat_lt c
  unfold utf8EncodeChar at hb
  split_ifs at hb with h1 h2 h3 <;>
    simp only [List.mem_cons, List.not_mem_nil, or_false] at hb
  · subst hb
    refine ⟨by omega, fun h47 => ?_⟩
    have hc : c = Char.ofNat 47 := by rw [← h47, char_ofNat_toNat]
    exact hc.trans (by decide)
  · rcases hb with rfl | rfl <;>
      exact ⟨by omega, fun h => absurd h (by omega)⟩
  · rcases hb with rfl | rfl | rfl <;>
      exact ⟨by omega, fun h => absurd h (by omega)⟩
  · rcases hb with rfl | rfl | rfl | rfl <;>
      exact ⟨by omega, fun h => absurd h (by omega)⟩

/-- Decoding inverts encoding at the head character. -/
theorem utf8DecodeList_encodeChar (c : Char) (rest : List Nat) :
    utf8DecodeList (utf8EncodeChar c ++ rest) = c :: utf8DecodeList rest := by
  have hub := char_toNat_lt c
  unfold utf8EncodeChar
  split_ifs with h1 h2 h3
  · simp only [List.cons_append, List.nil_append]
    rw [utf8DecodeList.eq_def]
    simp only [h1, ite_true, char_ofNat_toNat]
  · simp only [List.cons_append, List.nil_append]
    rw [utf8DecodeList.eq_def]
    have hb : ¬ (192 + c.toNat / 64 < 128) := by omega
    have hr : (192 ≤ 192 + c.toNat / 64 && 192 + c.toNat / 64 < 224) = true := by
      simp only [Bool.and_eq_true, decide_eq_true_eq]; omega
    have hcond : (1 ≤ ((128 + c.toNat % 64) :: rest).length
        && utf8IsCont (128 + c.toNat % 64)) = true := by
      simp only [List.length_cons, utf8IsCont, Bool.and_eq_true, decide_eq_true_eq]
      omega
    have hn : (192 + c.toNat / 64 - 192) * 64 + (128 + c.toNat % 64 - 128)
        = c.toNat := by omega
    simp only [hb, hr, hcond, ite_true, ite_false, List.getD_cons_zero,
      List.drop_succ_cons, List.drop_zero, hn, char_ofNat_toNat]
  · simp only [List.cons_append, List.nil_append]
    rw [utf8DecodeList.eq_def]
    have hb : ¬ (224 + c.toNat / 4096 < 128) := by omega
    have hr2 : (192 ≤ 224 + c.toNat / 4096 && 224 + c.toNat / 4096 < 224) = false := by
      simp only [Bool.and_eq_false_iff, decide_eq_false_iff_not]; omega
    have hr3 : (224 ≤ 224 + c.toNat / 4096 && 224 + c.toNat / 4096 < 240) = true := by
      simp only [Bool.and_eq_true, decide_eq_true_eq]; omega
    have hcond : (2 ≤ ((128 + c.toNat / 64 % 64) :: (128 + c.toNat % 64) :: rest).length
        && utf8IsCont (128 + c.toNat / 64 % 64)
        && utf8IsCont (128 + c.toNat % 64)) = true := by
      simp only [List.length_cons, utf8IsCont, Bool.and_eq_true, decide_eq_true_eq]
      omega
    have hn : (224 + c.toNat / 4096 - 224) * 4096 + (128 + c.toNat / 64 % 64 - 128) * 64
        + (128 + c.toNat % 64 - 128) = c.toNat := by omega
    simp only [hb, hr2, hr3, hcond, ite_true, ite_false, Bool.false_eq_true,
      List.getD_cons_zero, List.getD_cons_succ, List.drop_succ_cons, List.drop_zero,
      hn, char_ofNat_toNat]
  · simp only [List.cons_append, List.nil_append]
    rw [utf8DecodeList.eq_def]
    have hb : ¬ (240 + c.toNat / 262144 < 128) := by omega
    have hr2 : (192 ≤ 240 + c.toNat / 262144 && 240 + c.toNat / 262144 < 224)
        = false := by
      simp only [Bool.and_eq_false_iff, decide_eq_false_iff_not]; omega
    have hr3 : (224 ≤ 240 + c.toNat / 262144 && 240 + c.toNat / 262144 < 240)
        = false := by
      simp only [Bool.and_eq_false_iff, decide_eq_false_iff_not]; omega
    have hr4 : (240 ≤ 240 + c.toNat / 262144 && 240 + c.toNat / 262144 < 248)
        = true := by
      simp only [Bool.and_eq_true, decide_eq_true_eq]; omega
    have hcond : (3 ≤ ((128 + c.toNat / 4096 % 64) :: (128 + c.toNat / 64 % 64)
            :: (128 + c.toNat % 64) :: rest).length
        && utf8IsCont (128 + c.toNat / 4096 % 64)
        && utf8IsCont (128 + c.toNat / 64 % 64)
        && utf8IsCont (128 + c.toNat % 64)) = true := by
      simp only [List.length_cons, utf8IsCont, Bool.and_eq_true, decide_eq_true_eq]
      omega
    have hn : (240 + c.toNat / 262144 - 240) * 262144
        + (128 + c.toNat / 4096 % 64 - 128) * 4096
        + (128 + c.toNat / 64 % 64 - 128) * 64
        + (128 + c.toNat % 64 - 128) = c.toNat := by omega
    simp only [hb, hr2, hr3, hr4, hcond, ite_true, ite_false, Bool.false_eq_true,
      List.getD_cons_zero, List.getD_cons_succ, List.drop_succ_cons, List.drop_zero,
      hn, char_ofNat_toNat]

/-- The UTF-8 round trip on character lists. -/
theorem utf8DecodeList_encodeList (cs : List Char) :
    utf8DecodeList (utf8EncodeList cs) = cs := by
  induction cs with
  | nil => rw [utf8EncodeList, utf8DecodeList]
  | cons c cs ih =>
    rw [utf8EncodeList, utf8DecodeList_encodeChar, ih]

/-- The UTF-8 round trip on strings: decoding an encoded string returns
the original string. -/
theorem utf8Decode_encode (s : String) : utf8Decode (utf8Encode s) = s := by
  rcases s with ⟨data⟩
  rw [utf8Encode, utf8Decode, utf8DecodeList_encodeList]

/-- Encoded bytes are bytes. -/
theorem utf8Encode_lt_256 (s : String) : ∀ b ∈ utf8Encode s, b < 256 := by
  rcases s with ⟨data⟩
  rw [utf8Encode]
  induction data with
  | nil => simp [utf8EncodeList]
  | cons c cs ih =>
    rw [utf8EncodeList]
    intro b hb
    rcases List.mem_append.mp hb with h | h
    · exact (utf8EncodeChar_bytes c b h).1
    · exact ih b h

theorem b64Index_b64Char : ∀ n : Fin 64, b64Index (b64Char n.val) = some n.val := by
  decide

theorem b64Char_ne_pad : ∀ n : Fin 64, b64Char n.val ≠ '=' := by decide

/-- The base64 round trip on byte lists: decoding an encoded byte list
returns exactly the original bytes. -/
theorem atobDecodeAux_btoaEncode (bs : List Nat) (h : ∀ x ∈ bs, x < 256) :
    atobDecodeAux (btoaEncode bs).data = some bs := by
  match bs with
  | [] => simp [btoaEncode, atobDecodeAux]
  | [a] =>
    have ha : a < 256 := h a (by simp)
    have h1 : b64Index (b64Char (a / 4)) = some (a / 4) :=
      b64Index_b64Char ⟨a / 4, by omega⟩
    have h2 : b64Index (b64Char (a % 4 * 16)) = some (a % 4 * 16) :=
      b64Index_b64Char ⟨a % 4 * 16, by omega⟩
    simp only [btoaEncode, atobDecodeAux, h1, h2, Option.some_bind]
    simp only [Option.some.injEq, List.cons.injEq, and_true, reduceIte,
      List.isEmpty_nil, Bool.and_true, decide_True]
    simp
    omega
  | [a, b] =>
    have ha : a < 256 := h a (by simp)
    have hb : b < 256 := h b (by simp)
    have h1 : b64Index (b64Char (a / 4)) = some (a / 4) :=
      b64Index_b64Char ⟨a / 4, by omega⟩
    have h2 : b64Index (b64Char (a % 4 * 16 + b / 16)) = some (a % 4 * 16 + b / 16) :=
      b64Index_b64Char ⟨a % 4 * 16 + b / 16, by omega⟩
    have h3 : b64Index (b64Char (b % 16 * 4)) = some (b % 16 * 4) :=
      b64Index_b64Char ⟨b % 16 * 4, by omega⟩
    have hne : b64Char (b % 16 * 4) ≠ '=' := b64Char_ne_pad ⟨b % 16 * 4, by omega⟩
    simp only [btoaEncode, atobDecodeAux, h1, h2, h3, Option.some_bind, if_neg hne,
      reduceIte, decide_True, Bool.true_and, Bool.and_true, Bool.and_self,
      List.isEmpty_nil, ite_true, Option.some.injEq, List.cons.injEq, and_true]
    constructor <;> omega
  | a :: b :: c :: rest =>
    have ha : a < 256 := h a (by simp)
    have hb : b < 256 := h b (by simp)
    have hc : c < 256 := h c (by simp)
    have ih := atobDecodeAux_btoaEncode rest
      (fun x hx => h x (by simp [hx]))
    have h1 : b64Index (b64Char (a / 4)) = some (a / 4) :=
      b64Index_b64Char ⟨a / 4, by omega⟩
    have h2 : b64Index (b64Char (a % 4 * 16 + b / 16)) = some (a % 4 * 16 + b / 16) :=
      b64Index_b64Char ⟨a % 4 * 16 + b / 16, by omega⟩
    have h3 : b64Index (b64Char (b % 16 * 4 + c / 64)) = some (b % 16 * 4 + c / 64) :=
      b64Index_b64Char ⟨b % 16 * 4 + c / 64, by omega⟩
    have h4 : b64Index (b64Char (c % 64)) = some (c % 64) :=
      b64Index_b64Char ⟨c % 64, by omega⟩
    have hne3 : b64Char (b % 16 * 4 + c / 64) ≠ '=' :=
      b64Char_ne_pad ⟨b % 16 * 4 + c / 64, by omega⟩
    have hne4 : b64Char (c % 64) ≠ '=' := b64Char_ne_pad ⟨c % 64, by omega⟩
    simp only [btoaEncode, String.data_append, List.cons_append, List.nil_append,
      List.append_eq, atobDecodeAux, h1, h2, h3, h4, Option.some_bind, if_neg hne3,
      if_neg hne4, ih, Option.map_some', Option.some.injEq, List.cons.injEq]
    refine ⟨by omega, by omega, by omega, trivial⟩

/-- The base64 round trip on strings. -/
theorem atobDecode_btoaEncode (bs : List Nat) (h : ∀ x ∈ bs, x < 256) :
    atobDecode (btoaEncode bs) = some bs :=
  atobDecodeAux_btoaEncode bs h

set_option maxRecDepth 4000 in
theorem jsHexByte_eq_lowercaseHexByte :
    ∀ b : Fin 256, jsHexByte b.val = lowercaseHexByte b.val := by decide

/-- On genuine bytes the JavaScript hex rendering is the lowercase
two-digit hex encoding. -/
theorem bytesToHexJs_eq_lowercaseHex (bs : List Nat) (h : ∀ x ∈ bs, x < 256) :
    bytesToHexJs bs = lowercaseHex bs := by
  unfold bytesToHexJs lowercaseHex
  congr 1
  induction bs with
  | nil => rfl
  | cons b rest ih =>
    have hb : b < 256 := h b (by simp)
    simp only [List.map_cons, List.cons.injEq]
    exact ⟨jsHexByte_eq_lowercaseHexByte ⟨b, hb⟩,
      ih (fun x hx => h x (by simp [hx]))⟩

/-! ## Claim theorems -/

/-- C1: for every secret key, region, dateStamp and stringToSign,
`calculateSignature` returns the lowercase hex encoding of
`HMAC-SHA256(kSigning, stringToSign)`, where
`kDate = HMAC("AWS4" + secretKey, dateStamp)`,
`kRegion = HMAC(kDate, region)`, `kService = HMAC(kRegion, "s3")` and
`kSigning = HMAC(kService, "aws4_request")`.  The bound on the oracle
output states that HMAC-SHA-256 returns bytes. -/
theorem calculateSignature_is_sigv4_cascade (hmac : HmacFn)
    (secretKey region dateStamp stringToSign : String)
    (h : ∀ b ∈ hmac (sigV4SigningKey hmac secretKey dateStamp region)
        (utf8Encode stringToSign), b < 256) :
    calculateSignature hmac secretKey region stringToSign dateStamp
      = lowercaseHex (hmac (sigV4SigningKey hmac secretKey dateStamp region)
          (utf8Encode stringToSign)) := by
  unfold calculateSignature sigV4SigningKey serviceName
  exact bytesToHexJs_eq_lowercaseHex _ h

/-- Witness for C1 at a concrete two-byte HMAC oracle. -/
theorem calculateSignature_is_sigv4_cascade_witness :
    calculateSignature (fun _ _ => [0, 171]) "secret" "us-east-1" "sts" "20130524"
      = lowercaseHex ((fun _ _ => ([0, 171] : List Nat))
          (sigV4SigningKey (fun _ _ => [0, 171]) "secret" "20130524" "us-east-1")
          (utf8Encode "sts")) :=
  calculateSignature_is_sigv4_cascade (fun _ _ => [0, 171]) "secret" "us-east-1"
    "20130524" "sts" (by decide)

set_option maxRecDepth 100000 in
/-- C2: `MD5.hashBytes` implements RFC 1321: the padding appends `0x80`,
zeros to 56 mod 64 and the 64-bit little-endian bit length, and the
digests of the empty input and of "abc" are the published test vectors
`d41d8cd98f00b204e9800998ecf8427e` and
`900150983cd24fb0d6963f7d28e17f72`. -/
theorem md5_hashBytes_rfc1321 :
    (∀ bytes : List Nat, ∃ z,
        MD5.padMessage bytes = bytes ++ [128] ++ List.replicate z 0
            ++ MD5.le32Bytes (bytes.length * 8 % 4294967296)
            ++ MD5.le32Bytes (bytes.length * 8 / 4294967296)
          ∧ (bytes.length + 1 + z) % 64 = 56
          ∧ (MD5.padMessage bytes).length % 64 = 0)
    ∧ MD5.hashBytes []
        = [0xd4, 0x1d, 0x8c, 0xd9, 0x8f, 0x00, 0xb2, 0x04,
           0xe9, 0x80, 0x09, 0x98, 0xec, 0xf8, 0x42, 0x7e]
    ∧ MD5.hashBytes (utf8Encode "abc")
        = [0x90, 0x01, 0x50, 0x98, 0x3c, 0xd2, 0x4f, 0xb0,
           0xd6, 0x96, 0x3f, 0x7d, 0x28, 0xe1, 0x7f, 0x72] := by
  refine ⟨fun bytes => ⟨_, rfl, by omega, ?_⟩, by decide, by decide⟩
  simp only [MD5.padMessage, List.length_append, List.length_replicate,
    MD5.le32Bytes, List.length_cons, List.length_nil]
  omega

theorem jsEndsWith_append (s t : String) : jsEndsWith (s ++ t) t = true := by
  unfold jsEndsWith
  rw [String.data_append]
  exact decide_eq_true (List.suffix_append _ _)

theorem jsOrDefault_ne_empty (v : Option String) (d : String) (hd : d ≠ "") :
    jsOrDefault v d ≠ "" := by
  cases v with
  | none => simpa [jsOrDefault] using hd
  | some s =>
    simp only [jsOrDefault]
    by_cases h : s = ""
    · rw [if_pos h]; exact hd
    · rw [if_neg h]; exact h

/-- C10: the two base64 helpers used to serialize encryption envelopes are
mutually inverse: `base64ToArrayBuffer(arrayBufferToBase64(b))` returns
exactly the bytes of `b`. -/
theorem base64_helpers_roundtrip (b : List Nat) (h : ∀ x ∈ b, x < 256) :
    base64ToArrayBuffer (arrayBufferToBase64 b) = some b :=
  atobDecode_btoaEncode b h

/-- Witness for C10 at a concrete byte buffer. -/
theorem base64_helpers_roundtrip_witness :
    base64ToArrayBuffer (arrayBufferToBase64 [0, 1, 47, 255]) = some [0, 1, 47, 255] :=
  base64_helpers_roundtrip [0, 1, 47, 255] (by decide)

/-- C9: after `S3Client` construction the stored path prefix always ends
with `/` (a missing prefix defaults to `photos/`, a non-empty prefix
without a trailing slash gets one appended), and `uploadFile`,
`downloadFile`, `deleteObject` and `listObjects` all operate on the
stored prefix concatenated with the key or listing filter. -/
theorem pathPrefix_invariant (c : JsConfig) :
    jsEndsWith (mkS3ClientConfig c).pathPrefix "/" = true
    ∧ (c.pathPrefix = none → (mkS3ClientConfig c).pathPrefix = "photos/")
    ∧ (∀ s, c.pathPrefix = some s → s ≠ "" → jsEndsWith s "/" = false →
        (mkS3ClientConfig c).pathPrefix = s ++ "/")
    ∧ (∀ key, uploadFileFullKey (mkS3ClientConfig c) key
        = (mkS3ClientConfig c).pathPrefix ++ key)
    ∧ (∀ key, downloadFileFullKey (mkS3ClientConfig c) key
        = (mkS3ClientConfig c).pathPrefix ++ key)
    ∧ (∀ key, deleteObjectFullKey (mkS3ClientConfig c) key
        = (mkS3ClientConfig c).pathPrefix ++ key)
    ∧ (∀ p, listObjectsFullPrefix (mkS3ClientConfig c) p
        = (mkS3ClientConfig c).pathPrefix ++ p) := by
  refine ⟨?_, ?_, ?_, fun _ => rfl, fun _ => rfl, fun _ => rfl, fun _ => rfl⟩
  · show jsEndsWith
      (if (jsOrDefault c.pathPrefix "photos/") ≠ ""
          && !(jsEndsWith (jsOrDefault c.pathPrefix "photos/") "/")
        then (jsOrDefault c.pathPrefix "photos/") ++ "/"
        else (jsOrDefault c.pathPrefix "photos/")) "/" = true
    have hne : jsOrDefault c.pathPrefix "photos/" ≠ "" :=
      jsOrDefault_ne_empty _ _ (by decide)
    cases he : jsEndsWith (jsOrDefault c.pathPrefix "photos/") "/" with
    | true =>
      rw [if_neg (by simp [he])]
      exact he
    | false =>
      rw [if_pos (by simp [hne, he])]
      exact jsEndsWith_append _ _
  · intro h
    show (if (jsOrDefault c.pathPrefix "photos/") ≠ ""
          && !(jsEndsWith (jsOrDefault c.pathPrefix "photos/") "/")
        then (jsOrDefault c.pathPrefix "photos/") ++ "/"
        else (jsOrDefault c.pathPrefix "photos/")) = "photos/"
    rw [h]
    decide
  · intro s hs hne hew
    show (if (jsOrDefault c.pathPrefix "photos/") ≠ ""
          && !(jsEndsWith (jsOrDefault c.pathPrefix "photos/") "/")
        then (jsOrDefault c.pathPrefix "photos/") ++ "/"
        else (jsOrDefault c.pathPrefix "photos/")) = s ++ "/"
    rw [hs]
    have hj : jsOrDefault (some s) "photos/" = s := by
      simp only [jsOrDefault]; rw [if_neg hne]
    rw [hj, if_pos (by simp [hne, hew])]

/-- Witness for C9 at the empty configuration. -/
theorem pathPrefix_invariant_witness :
    jsEndsWith (mkS3ClientConfig
        ⟨none, none, none, none, none, none, none⟩).pathPrefix "/" = true
    ∧ (mkS3ClientConfig ⟨none, none, none, none, none, none, none⟩).pathPrefix
        = "photos/" :=
  ⟨(pathPrefix_invariant ⟨none, none, none, none, none, none, none⟩).1,
   (pathPrefix_invariant ⟨none, none, none, none, none, none, none⟩).2.1 rfl⟩

/-- C8 counterexample: constructing `S3ClientSSE` with a configuration
missing the endpoint and region fields raises nothing and silently stores
the default endpoint `https://s3.amazonaws.com` and region `us-east-1`,
contradicting the claim that a missing field is never silently replaced
by a default value. -/
theorem sse_constructor_silently_defaults :
    (mkS3ClientSSEConfig ⟨none, none, none, none, none, none, none⟩).s3_endpoint
        = "https://s3.amazonaws.com"
    ∧ (mkS3ClientSSEConfig ⟨none, none, none, none, none, none, none⟩).s3_region
        = "us-east-1" :=
  ⟨rfl, rfl⟩

/-- C8 amended: construction never raises; the `S3ClientSSE` constructor
silently defaults a missing or empty endpoint and region through `||`
and stores the remaining fields unchanged, while `S3Client.validateConfig`
merely returns `false` when a required credential or endpoint field is
missing — no `ConfigurationError` exists and signing is not gated on
validation. -/
theorem config_defaulting_and_validation (c : JsConfig) :
    (mkS3ClientSSEConfig c).s3_endpoint
        = jsOrDefault c.s3_endpoint "https://s3.amazonaws.com"
    ∧ (mkS3ClientSSEConfig c).s3_region = jsOrDefault c.s3_region "us-east-1"
    ∧ (mkS3ClientSSEConfig c).s3_bucket = c.s3_bucket
    ∧ (mkS3ClientSSEConfig c).s3_access_key = c.s3_access_key
    ∧ (mkS3ClientSSEConfig c).s3_secret_key = c.s3_secret_key
    ∧ (c.s3_endpoint = none → validateConfig (mkS3ClientConfig c) = false)
    ∧ (c.s3_region = none → validateConfig (mkS3ClientConfig c) = false)
    ∧ (c.s3_bucket = none → validateConfig (mkS3ClientConfig c) = false)
    ∧ (c.s3_access_key = none → validateConfig (mkS3ClientConfig c) = false)
    ∧ (c.s3_secret_key = none → validateConfig (mkS3ClientConfig c) = false) := by
  refine ⟨rfl, rfl, rfl, rfl, rfl, ?_, ?_, ?_, ?_, ?_⟩ <;>
    (intro h; simp [validateConfig, mkS3ClientConfig, h, jsFieldOk])

/-- Witness for C8 (amended) at the empty configuration. -/
theorem config_defaulting_and_validation_witness :
    validateConfig (mkS3ClientConfig ⟨none, none, none, none, none, none, none⟩)
      = false :=
  (config_defaulting_and_validation
      ⟨none, none, none, none, none, none, none⟩).2.2.2.2.2.1 rfl

/-- C7: `getSSEHeaders` returns exactly the three SSE-C headers — the
algorithm `AES256`, the base64 of the raw key (a single SHA-256 digest of
the UTF-8 passphrase bytes), and the base64 of the from-scratch MD5 of
the same raw key bytes; under the standing facts about SHA-256 (32
bytes out), the key header decodes back to the 32-byte raw key. -/
theorem getSSEHeaders_spec (sha256fn : List Nat → List Nat) (pass : String)
    (hlen : (sha256fn (utf8Encode pass)).length = 32)
    (hb : ∀ b ∈ sha256fn (utf8Encode pass), b < 256) :
    getSSEHeaders sha256fn pass
      = [("x-amz-server-side-encryption-customer-algorithm", "AES256"),
         ("x-amz-server-side-encryption-customer-key",
           btoaEncode (sha256fn (utf8Encode pass))),
         ("x-amz-server-side-encryption-customer-key-MD5",
           btoaEncode (MD5.hashBytes (sha256fn (utf8Encode pass))))]
    ∧ (getSSEHeaders sha256fn pass).length = 3
    ∧ ∃ raw, atobDecode (btoaEncode (generateSSEKey sha256fn pass)) = some raw
        ∧ raw.length = 32 :=
  ⟨rfl, rfl, sha256fn (utf8Encode pass),
    atobDecode_btoaEncode _ hb, hlen⟩

/-- Witness for C7 at a constant 32-byte SHA-256 stand-in. -/
theorem getSSEHeaders_spec_witness :
    getSSEHeaders (fun _ => List.replicate 32 0) "pw"
      = [("x-amz-server-side-encryption-customer-algorithm", "AES256"),
         ("x-amz-server-side-encryption-customer-key",
           btoaEncode ((fun _ => List.replicate 32 0) (utf8Encode "pw"))),
         ("x-amz-server-side-encryption-customer-key-MD5",
           btoaEncode (MD5.hashBytes ((fun _ => List.replicate 32 0)
             (utf8Encode "pw"))))]
    ∧ (getSSEHeaders (fun _ => List.replicate 32 0) "pw").length = 3
    ∧ ∃ raw, atobDecode (btoaEncode (generateSSEKey (fun _ => List.replicate 32 0)
          "pw")) = some raw ∧ raw.length = 32 :=
  getSSEHeaders_spec (fun _ => List.replicate 32 0) "pw" (by decide) (by decide)

/-- C3: the seal/open round trip.  Over any `crypto.subtle` model whose
AES-GCM decrypt inverts encrypt under the same key and iv (the defining
correctness of the primitive), `decryptString` applied to the envelope
produced by `encryptString` with the same passphrase returns the original
plaintext, and likewise `decryptFile` on the output of `encryptFile`
returns the original byte payload. -/
theorem seal_open_roundtrip {κ : Type} (m : SubtleCrypto κ) (pass text : String)
    (data salt iv : List Nat)
    (hsalt : ∀ b ∈ salt, b < 256)
    (hiv : ∀ b ∈ iv, b < 256)
    (hct : ∀ b ∈ m.encryptGCM (m.deriveKey pass salt) iv (utf8Encode text), b < 256)
    (hgcm : ∀ d : List Nat, m.decryptGCM (m.deriveKey pass salt) iv
        (m.encryptGCM (m.deriveKey pass salt) iv d) = some d) :
    decryptString m (encryptString m text pass salt iv).encryptedData
        (encryptString m text pass salt iv).salt
        (encryptString m text pass salt iv).iv pass
      = Except.ok text
    ∧ decryptFile m (encryptFile m data pass salt iv).encryptedData
        (encryptFile m data pass salt iv).salt
        (encryptFile m data pass salt iv).iv pass
      = Except.ok data := by
  constructor
  · simp only [decryptString, encryptString, arrayBufferToBase64, base64ToArrayBuffer,
      atobDecode_btoaEncode _ hct, atobDecode_btoaEncode _ hsalt,
      atobDecode_btoaEncode _ hiv, hgcm, utf8Decode_encode]
  · simp only [decryptFile, encryptFile, hgcm]

/-- Witness for C3 with an identity AES-GCM stand-in. -/
theorem seal_open_roundtrip_witness :
    decryptString
        (⟨fun _ _ => (), fun _ _ d => d, fun _ _ c => some c⟩ : SubtleCrypto Unit)
        (encryptString ⟨fun _ _ => (), fun _ _ d => d, fun _ _ c => some c⟩
          "hi" "pw" [1] [2]).encryptedData
        (encryptString ⟨fun _ _ => (), fun _ _ d => d, fun _ _ c => some c⟩
          "hi" "pw" [1] [2]).salt
        (encryptString ⟨fun _ _ => (), fun _ _ d => d, fun _ _ c => some c⟩
          "hi" "pw" [1] [2]).iv "pw"
      = Except.ok "hi"
    ∧ decryptFile
        (⟨fun _ _ => (), fun _ _ d => d, fun _ _ c => some c⟩ : SubtleCrypto Unit)
        (encryptFile ⟨fun _ _ => (), fun _ _ d => d, fun _ _ c => some c⟩
          [3] "pw" [1] [2]).encryptedData
        (encryptFile ⟨fun _ _ => (), fun _ _ d => d, fun _ _ c => some c⟩
          [3] "pw" [1] [2]).salt
        (encryptFile ⟨fun _ _ => (), fun _ _ d => d, fun _ _ c => some c⟩
          [3] "pw" [1] [2]).iv "pw"
      = Except.ok [3] :=
  seal_open_roundtrip ⟨fun _ _ => (), fun _ _ d => d, fun _ _ c => some c⟩
    "pw" "hi" [3] [1] [2] (by decide) (by decide) (by decide) (fun _ => rfl)

/-- C4: opening under the wrong passphrase.  The hypotheses are the AEAD
authenticity facts for the sealed envelope — tag verification under the
key derived from the other passphrase fails — and the theorem shows both
`decryptString` and `decryptFile` then fail with the single
undifferentiated message
`Decryption failed: Incorrect passphrase or corrupted data`, never
distinguishing a wrong key from corrupted ciphertext. -/
theorem wrong_passphrase_fails {κ : Type} (m : SubtleCrypto κ) (k1 k2 text : String)
    (data salt iv : List Nat)
    (hsalt : ∀ b ∈ salt, b < 256)
    (hiv : ∀ b ∈ iv, b < 256)
    (hct : ∀ b ∈ m.encryptGCM (m.deriveKey k1 salt) iv (utf8Encode text), b < 256)
    (hauthS : m.decryptGCM (m.deriveKey k2 salt) iv
        (m.encryptGCM (m.deriveKey k1 salt) iv (utf8Encode text)) = none)
    (hauthF : m.decryptGCM (m.deriveKey k2 salt) iv
        (m.encryptGCM (m.deriveKey k1 salt) iv data) = none) :
    decryptString m (encryptString m text k1 salt iv).encryptedData
        (encryptString m text k1 salt iv).salt
        (encryptString m text k1 salt iv).iv k2
      = Except.error "Decryption failed: Incorrect passphrase or corrupted data"
    ∧ decryptFile m (encryptFile m data k1 salt iv).encryptedData
        (encryptFile m data k1 salt iv).salt
        (encryptFile m data k1 salt iv).iv k2
      = Except.error "Decryption failed: Incorrect passphrase or corrupted data" := by
  constructor
  · simp only [decryptString, encryptString, arrayBufferToBase64, base64ToArrayBuffer,
      atobDecode_btoaEncode _ hct, atobDecode_btoaEncode _ hsalt,
      atobDecode_btoaEncode _ hiv, hauthS]
  · simp only [decryptFile, encryptFile, hauthF]

/-- Witness for C4 with a passphrase-keyed AES-GCM stand-in that rejects
every key other than the sealing key. -/
theorem wrong_passphrase_fails_witness :
    decryptString
        (⟨fun p _ => p, fun _ _ d => d,
          fun k _ c => if k = "a" then some c else none⟩ : SubtleCrypto String)
        (encryptString ⟨fun p _ => p, fun _ _ d => d,
          fun k _ c => if k = "a" then some c else none⟩ "hi" "a" [1] [2]).encryptedData
        (encryptString ⟨fun p _ => p, fun _ _ d => d,
          fun k _ c => if k = "a" then some c else none⟩ "hi" "a" [1] [2]).salt
        (encryptString ⟨fun p _ => p, fun _ _ d => d,
          fun k _ c => if k = "a" then some c else none⟩ "hi" "a" [1] [2]).iv "b"
      = Except.error "Decryption failed: Incorrect passphrase or corrupted data"
    ∧ decryptFile
        (⟨fun p _ => p, fun _ _ d => d,
          fun k _ c => if k = "a" then some c else none⟩ : SubtleCrypto String)
        (encryptFile ⟨fun p _ => p, fun _ _ d => d,
          fun k _ c => if k = "a" then some c else none⟩ [3] "a" [1] [2]).encryptedData
        (encryptFile ⟨fun p _ => p, fun _ _ d => d,
          fun k _ c => if k = "a" then some c else none⟩ [3] "a" [1] [2]).salt
        (encryptFile ⟨fun p _ => p, fun _ _ d => d,
          fun k _ c => if k = "a" then some c else none⟩ [3] "a" [1] [2]).iv "b"
      = Except.error "Decryption failed: Incorrect passphrase or corrupted data" :=
  wrong_passphrase_fails
    ⟨fun p _ => p, fun _ _ d => d, fun k _ c => if k = "a" then some c else none⟩
    "a" "b" "hi" [3] [1] [2] (by decide) (by decide) (by decide)
    (by decide) (by decide)

/-- C6: the canonical query string of a presigned URL is built from
exactly the five `X-Amz-Algorithm`, `X-Amz-Credential`, `X-Amz-Date`,
`X-Amz-Expires`, `X-Amz-SignedHeaders` pairs, whose keys stand in strict
byte order, percent-encoded as `key=value` joined with `&`;
`X-Amz-Signature` is not among them and is appended to the query string
only after the signature has been computed over the canonical request
containing that signature-free query string. -/
theorem presigned_query_string_spec (shaHex : String → String) (hmac : HmacFn)
    (endpoint bucket region accessKey secretKey key method dateString : String)
    (expiresIn : Nat) :
    (presignedQueryParams accessKey region (dateString.take 8) dateString
        expiresIn).map Prod.fst
      = ["X-Amz-Algorithm", "X-Amz-Credential", "X-Amz-Date", "X-Amz-Expires",
         "X-Amz-SignedHeaders"]
    ∧ List.Pairwise (fun a b => stringByteLt a b = true)
        ["X-Amz-Algorithm", "X-Amz-Credential", "X-Amz-Date", "X-Amz-Expires",
         "X-Amz-SignedHeaders"]
    ∧ "X-Amz-Signature"
        ∉ (presignedQueryParams accessKey region (dateString.take 8) dateString
            expiresIn).map Prod.fst
    ∧ urlSearchParamsToString
          (presignedQueryParams accessKey region (dateString.take 8) dateString
            expiresIn)
        = String.intercalate "&"
            ((presignedQueryParams accessKey region (dateString.take 8) dateString
                expiresIn).map
              fun p => formUrlEncode p.1 ++ "=" ++ formUrlEncode p.2)
    ∧ generatePresignedUrl shaHex hmac endpoint bucket region accessKey secretKey
          key method expiresIn dateString
        = endpoint ++ canonicalUriFor bucket key ++ "?"
          ++ (urlSearchParamsToString
                (presignedQueryParams accessKey region (dateString.take 8) dateString
                  expiresIn)
              ++ "&X-Amz-Signature="
              ++ calculateSignature hmac secretKey region
                  (stringToSignOf shaHex dateString
                    (credentialScopeFor (dateString.take 8) region)
                    (canonicalRequestOf method (canonicalUriFor bucket key)
                      (urlSearchParamsToString
                        (presignedQueryParams accessKey region (dateString.take 8)
                          dateString expiresIn))
                      ("host:" ++ urlHost endpoint ++ "\n") "host"
                      "UNSIGNED-PAYLOAD"))
                  (dateString.take 8)) := by
  refine ⟨rfl, ?_, ?_, rfl, rfl⟩
  · decide
  · simp [presignedQueryParams]

theorem replace2F_slash (l : List Char) :
    replace2F ('%' :: '2' :: 'F' :: l) = '/' :: replace2F l := rfl

theorem replace2F_cons_ne (c : Char) (l : List Char) (hq : c ≠ '%') :
    replace2F (c :: l) = c :: replace2F l := by
  rw [replace2F.eq_def]
  split
  · rename_i heq
    injection heq with h1 _
    exact absurd h1 hq
  · rename_i heq
    injection heq with h1 h2
    rw [h1, h2]
  · rename_i heq
    exact (List.cons_ne_nil _ _ heq).elim

theorem replace2F_pct (x y : Char) (l : List Char) (hxy : ¬(x = '2' ∧ y = 'F')) :
    replace2F ('%' :: x :: y :: l) = '%' :: replace2F (x :: y :: l) := by
  rw [replace2F.eq_def]
  split
  · rename_i heq
    injection heq with h1 h2
    injection h2 with h2 h3
    injection h3 with h3 _
    exact absurd ⟨h2, h3⟩ hxy
  · rename_i heq
    injection heq with h1 h2
    rw [h1, h2]
  · rename_i heq
    exact (List.cons_ne_nil _ _ heq).elim

theorem hexUpperDigit_ne_pct : ∀ n : Fin 16, hexUpperDigit n.val ≠ '%' := by decide

theorem hexUpperDigit_alphabet :
    ∀ n : Fin 16, (hexUpperDigit n.val).isDigit = true
      ∨ (65 ≤ (hexUpperDigit n.val).toNat ∧ (hexUpperDigit n.val).toNat ≤ 70) := by
  decide

set_option maxRecDepth 4000 in
theorem hexPair_ne_2F : ∀ b : Fin 256, b.val ≠ 47 →
    ¬(hexUpperDigit (b.val / 16) = '2' ∧ hexUpperDigit (b.val % 16) = 'F') := by
  decide

theorem replace2F_escape (b : Nat) (hb : b < 256) (hb47 : b ≠ 47) (r : List Char) :
    replace2F (percentEncodeByteChars b ++ r)
      = percentEncodeByteChars b ++ replace2F r := by
  have h1 : hexUpperDigit (b / 16) ≠ '%' := hexUpperDigit_ne_pct ⟨b / 16, by omega⟩
  have h2 : hexUpperDigit (b % 16) ≠ '%' := hexUpperDigit_ne_pct ⟨b % 16, by omega⟩
  have h3 : ¬(hexUpperDigit (b / 16) = '2' ∧ hexUpperDigit (b % 16) = 'F') :=
    hexPair_ne_2F ⟨b, hb⟩ hb47
  simp only [percentEncodeByteChars, List.cons_append, List.nil_append]
  rw [replace2F_pct _ _ _ h3, replace2F_cons_ne _ _ h1, replace2F_cons_ne _ _ h2]

theorem replace2F_escapeBytes (bs : List Nat) (h : ∀ b ∈ bs, b < 256 ∧ b ≠ 47)
    (r : List Char) :
    replace2F (escapeBytes bs ++ r) = escapeBytes bs ++ replace2F r := by
  induction bs with
  | nil => simp [escapeBytes]
  | cons b rest ih =>
    have hb := h b (by simp)
    rw [escapeBytes, List.append_assoc, replace2F_escape b hb.1 hb.2,
      ih (fun x hx => h x (by simp [hx])), List.append_assoc]

theorem replace2F_encChar (c : Char) (r : List Char) :
    replace2F ((encodeURIComponentChar c).data ++ r)
      = (if c = '/' then ['/'] else (encodeURIComponentChar c).data)
        ++ replace2F r := by
  by_cases hslash : c = '/'
  · subst hslash
    have hdata : (encodeURIComponentChar '/').data = ['%', '2', 'F'] := by decide
    rw [hdata, if_pos rfl]
    simp only [List.cons_append, List.nil_append]
    exact replace2F_slash r
  · rw [if_neg hslash]
    by_cases hsafe : jsSafeChar c = true
    · have hdata : (encodeURIComponentChar c).data = [c] := by
        unfold encodeURIComponentChar
        rw [if_pos hsafe]
      rw [hdata]
      simp only [List.cons_append, List.nil_append]
      have hpc : c ≠ '%' := by
        intro hc
        subst hc
        exact absurd hsafe (by decide)
      exact replace2F_cons_ne _ _ hpc
    · have hdata : (encodeURIComponentChar c).data = escapeBytes (utf8EncodeChar c) := by
        unfold encodeURIComponentChar
        rw [if_neg hsafe]
      rw [hdata]
      exact replace2F_escapeBytes _
        (fun b hb => ⟨(utf8EncodeChar_bytes c b hb).1,
          fun h47 => hslash ((utf8EncodeChar_bytes c b hb).2 h47)⟩) r

theorem replace2F_encodeList (cs : List Char) :
    replace2F (encodeURIComponentList cs) = specEncodeKeyChars cs := by
  have gen : ∀ (ds r : List Char),
      replace2F (encodeURIComponentList ds ++ r)
        = specEncodeKeyChars ds ++ replace2F r := by
    intro ds
    induction ds with
    | nil => intro r; simp [encodeURIComponentList, specEncodeKeyChars]
    | cons c ds ih =>
      intro r
      rw [encodeURIComponentList, specEncodeKeyChars, List.append_assoc,
        replace2F_encChar, ih, List.append_assoc]
  have h := gen cs []
  rw [List.append_nil] at h
  rw [h]
  show specEncodeKeyChars cs ++ replace2F [] = specEncodeKeyChars cs
  rw [replace2F, List.append_nil]

theorem escapeBytes_alphabet (bs : List Nat) (h : ∀ b ∈ bs, b < 256) :
    ∀ ch ∈ escapeBytes bs,
      ch = '%' ∨ ch.isDigit = true ∨ (65 ≤ ch.toNat ∧ ch.toNat ≤ 70) := by
  induction bs with
  | nil => simp [escapeBytes]
  | cons b rest ih =>
    have hb : b < 256 := (h b (by simp))
    intro ch hch
    rw [escapeBytes] at hch
    rcases List.mem_append.mp hch with hm | hm
    · simp only [percentEncodeByteChars, List.mem_cons, List.not_mem_nil,
        or_false] at hm
      rcases hm with rfl | rfl | rfl
      · exact Or.inl rfl
      · exact Or.inr (hexUpperDigit_alphabet ⟨b / 16, by omega⟩)
      · exact Or.inr (hexUpperDigit_alphabet ⟨b % 16, by omega⟩)
    · exact ih (fun x hx => h x (by simp [hx])) ch hm

/-- C5 counterexample: for the object key `!` the canonical URI of
`generatePresignedUrl` is `/bucket/!` — the character `!` is left
unencoded although it is not in the RFC 3986 unreserved set, so the
canonical URI does not percent-encode per strict unreserved-character
rules. -/
theorem canonicalUri_leaves_bang_unencoded :
    canonicalUriFor "bucket" "!" = "/bucket/!"
    ∧ rfc3986Unreserved '!' = false
    ∧ encodeKeyForUri "!" = "!" := by
  refine ⟨by decide, rfl, by decide⟩

/-- C5 (amended): the canonical URI percent-encodes the object key per
the rules of `encodeURIComponent` — RFC 3986 unreserved characters plus
`! * ' ( )` are left unencoded — character by character, with literal `/`
segment separators preserved; every character of an escape is `%` or an
uppercase hex digit, and every strict-unreserved character is indeed left
unencoded. -/
theorem canonicalUri_percent_encoding (bucket key : String) :
    canonicalUriFor bucket key
      = "/" ++ bucket ++ "/" ++ String.mk (specEncodeKeyChars key.data)
    ∧ (∀ c : Char, jsSafeChar c = false →
        ∀ ch ∈ (encodeURIComponentChar c).data,
          ch = '%' ∨ ch.isDigit = true ∨ (65 ≤ ch.toNat ∧ ch.toNat ≤ 70))
    ∧ (∀ c : Char, rfc3986Unreserved c = true → jsSafeChar c = true) := by
  refine ⟨?_, ?_, ?_⟩
  · unfold canonicalUriFor encodeKeyForUri jsEncodeURIComponent
    rw [show (String.mk (encodeURIComponentList key.data)).data
          = encodeURIComponentList key.data from rfl,
      replace2F_encodeList]
  · intro c hc ch hch
    have hdata : (encodeURIComponentChar c).data = escapeBytes (utf8EncodeChar c) := by
      unfold encodeURIComponentChar
      rw [if_neg (by simp [hc])]
    rw [hdata] at hch
    exact escapeBytes_alphabet _ (fun b hb => (utf8EncodeChar_bytes c b hb).1) ch hch
  · intro c hc
    simp only [rfc3986Unreserved, Bool.or_eq_true, decide_eq_true_eq] at hc
    simp only [jsSafeChar, Bool.or_eq_true, decide_eq_true_eq]
    tauto

/-- Witness for C5 (amended) at a concrete bucket, a key containing a
slash and a bang, and the unsafe character space. -/
theorem canonicalUri_percent_encoding_witness :
    canonicalUriFor "b" "a/!"
      = "/" ++ "b" ++ "/" ++ String.mk (specEncodeKeyChars "a/!".data)
    ∧ (∀ ch ∈ (encodeURIComponentChar ' ').data,
        ch = '%' ∨ ch.isDigit = true ∨ (65 ≤ ch.toNat ∧ ch.toNat ≤ 70))
    ∧ jsSafeChar 'A' = true :=
  ⟨(canonicalUri_percent_encoding "b" "a/!").1,
   (canonicalUri_percent_encoding "b" "a/!").2.1 ' ' (by decide),
   (canonicalUri_percent_encoding "b" "a/!").2.2 'A' (by decide)⟩

end S3Backup
